import Mathlib

/-!
# Verification of the nutri-snap meal ingestion and reconciliation workflow

A shallow embedding of the server-side meal workflow of the nutri-snap
repository, together with theorems settling the specification's claims.

Embedded source files:
* `server/openai.ts` — the `analyzeFood` post-processing of the upstream
  service's raw JSON (numeric coercion and rounding), `generateFoodImage`.
* `server/routes.ts` — the `POST /api/meals`, `PATCH /api/meals/:id`,
  `DELETE /api/meals/:id` and `GET /api/meals` handlers, including the
  asynchronous analysis / image-generation continuations and the
  WebSocket `meal_updated` broadcast.
* `server/storage.ts` — the `DatabaseStorage` operations over the `meals`
  table (`createMeal`, `updateMeal`, `deleteMeal`, `getMealById`,
  `getMealsByDate`), with the database modelled as an id-keyed list.
* `shared/schema.ts` — the `Meal` record shape.

Modelling conventions:
* JavaScript numbers appearing in the upstream service's raw JSON are
  modelled as `Option ℚ`: `none` stands for `undefined` / a value whose
  `Number(·)` conversion is `NaN`; `some q` stands for a clean number.
* JavaScript truthiness is modelled field-by-field: for strings the empty
  string is falsy, for numbers `0` is falsy, `null`/`undefined` is `none`.
* Timestamps are integer milliseconds since the epoch.
* The external Analyzer / Synthesizer calls are oracle parameters of type
  `Except Unit _` (`.error` models a thrown exception).
* Each route handler is a pure function from the request, the store and
  the oracles to the final store, the HTTP response and an event trace;
  the trace records store writes, external calls and broadcasts in the
  order the handler performs them, which makes the ordering claims
  (synchronous persist before analysis, broadcast only on success)
  statable.
-/

namespace NutriSnap

/-! ## JavaScript semantics helpers -/

/-- JavaScript `Math.round`: round half toward positive infinity
(`Math.round(-3.5) = -3`).  Defined via the computable `Rat.floor`. -/
def jsRound (q : ℚ) : Int := Rat.floor (q + 1/2)

theorem jsRound_eq_floor (q : ℚ) : jsRound q = ⌊q + 1/2⌋ := rfl

/-- `Number(x) || 0` on a raw JSON number: `NaN`/missing (modelled `none`)
and `0` are falsy and give `0`; every other number passes through. -/
def jsNumOr0 : Option ℚ → ℚ
  | none => 0
  | some q => if q = 0 then 0 else q

/-- `a || b` on integers (`0` is falsy). -/
def jsOrI (a b : Int) : Int := if a = 0 then b else a

/-- `s || d` on strings (`""` is falsy). -/
def jsOrS : Option String → String → String
  | none, d => d
  | some s, d => if s = "" then d else s

/-- `x || null` on an optional string (`""` becomes `null`). -/
def jsOrNullS : Option String → Option String
  | none => none
  | some s => if s = "" then none else some s

/-- `x || null` on an optional integer (`0` becomes `null`). -/
def jsOrNullI : Option Int → Option Int
  | none => none
  | some n => if n = 0 then none else some n

/-- Truthiness of an optional string (`undefined` and `""` are falsy). -/
def truthyOS : Option String → Bool
  | none => false
  | some s => s != ""

/-- Truthiness of an optional integer (`undefined` and `0` are falsy). -/
def truthyOI : Option Int → Bool
  | none => false
  | some n => n != 0

/-- ASCII whitespace (the fragment of JavaScript's trimmed character
class needed for the inputs we quantify over). -/
def isJsWS (c : Char) : Bool := c == ' ' || c == '\t' || c == '\n' || c == '\r'

/-- JavaScript `String.prototype.trim`: strip leading and trailing
whitespace. -/
def jsTrim (s : String) : String :=
  ⟨((s.data.dropWhile isJsWS).reverse.dropWhile isJsWS).reverse⟩

/-! ## Nutrition Analyzer adapter (`server/openai.ts`) -/

/-- The raw JSON object parsed from the upstream service's reply in
`analyzeFood` (`server/openai.ts:137`).  Numeric fields are `Option ℚ`
(`none` = missing or `NaN` under `Number(·)`); string fields are
`Option String` (`none` = missing). -/
structure RawAnalysis where
  calories : Option ℚ := none
  fat : Option ℚ := none
  carbs : Option ℚ := none
  protein : Option ℚ := none
  foodName : Option String := none
  brandName : Option String := none
  quantity : Option ℚ := none
  unit : Option String := none
deriving Repr, DecidableEq

/-- The `MealAnalysis` value returned by `analyzeFood` on success
(`shared/schema.ts` `mealAnalysisSchema`, after the coercions at
`server/openai.ts:140-149`). -/
structure MealAnalysis where
  calories : Int
  fat : Int
  carbs : Int
  protein : Int
  foodName : Option String := none
  brandName : Option String := none
  quantity : Option Int := none
  unit : Option String := none
deriving Repr, DecidableEq

/-- The success-path post-processing of `analyzeFood`
(`server/openai.ts:140-149`):
`calories: Math.round(Number(result.calories) || 0)` and likewise for
`fat`, `carbs`, `protein`; `foodName: result.foodName || undefined` and
likewise for `brandName`, `unit`;
`quantity: result.quantity ? Math.round(Number(result.quantity)) : undefined`. -/
def analyzeFoodOk (r : RawAnalysis) : MealAnalysis where
  calories := jsRound (jsNumOr0 r.calories)
  fat := jsRound (jsNumOr0 r.fat)
  carbs := jsRound (jsNumOr0 r.carbs)
  protein := jsRound (jsNumOr0 r.protein)
  foodName := jsOrNullS r.foodName
  brandName := jsOrNullS r.brandName
  quantity := match r.quantity with
    | none => none
    | some q => if q = 0 then none else some (jsRound q)
  unit := jsOrNullS r.unit

/-! Basic facts about the rounding helpers. -/

theorem jsRound_le (q : ℚ) : |(jsRound q : ℚ) - q| ≤ 1/2 := by
  rw [jsRound_eq_floor, abs_le]
  constructor
  · have h := Int.lt_floor_add_one (q + 1/2)
    push_cast at h ⊢
    linarith
  · have h := Int.floor_le (q + 1/2)
    push_cast at h ⊢
    linarith

theorem jsRound_nonneg {q : ℚ} (h : 0 ≤ q) : 0 ≤ jsRound q := by
  rw [jsRound_eq_floor]
  exact Int.floor_nonneg.2 (by linarith)

theorem jsNumOr0_none : jsNumOr0 none = 0 := rfl

theorem jsNumOr0_nonneg {o : Option ℚ} (h : ∀ q ∈ o, 0 ≤ q) :
    0 ≤ jsNumOr0 o := by
  cases o with
  | none => simp [jsNumOr0]
  | some q =>
    simp only [jsNumOr0]
    split
    · exact le_refl 0
    · exact h q rfl

/-! ## Data model (`shared/schema.ts`) and Meal Store (`server/storage.ts`) -/

/-- A row of the `meals` table (`shared/schema.ts:36-54`).  String columns
that the create handler always populates (`foodName`, `brandName`,
`description`, `imageUrl`, via `req.body.x || ""`) are plain `String`;
`quantity`/`unit` stay optional, matching the `|| null` defaulting. -/
structure Meal where
  id : Nat
  userId : Nat
  mealType : String
  foodName : String
  brandName : String
  description : String
  imageUrl : String
  calories : Int
  fat : Int
  carbs : Int
  protein : Int
  quantity : Option Int
  unit : Option String
  analysisPending : Bool
  userProvidedImage : Bool
  timestamp : Int
deriving Repr, DecidableEq

/-- A partial update as passed to `storage.updateMeal` (drizzle's
`.set(updateData)`): `none` = column not mentioned, `some v` = column set
to `v`.  For the nullable `quantity`/`unit` columns the inner `Option` is
the stored value. -/
structure MealUpdate where
  mealType : Option String := none
  foodName : Option String := none
  brandName : Option String := none
  description : Option String := none
  imageUrl : Option String := none
  calories : Option Int := none
  fat : Option Int := none
  carbs : Option Int := none
  protein : Option Int := none
  quantity : Option (Option Int) := none
  unit : Option (Option String) := none
  analysisPending : Option Bool := none
  userProvidedImage : Option Bool := none
deriving Repr, DecidableEq

/-- Apply a partial update to a row (drizzle `update ... set`). -/
def applyUpdate (m : Meal) (u : MealUpdate) : Meal where
  id := m.id
  userId := m.userId
  mealType := u.mealType.getD m.mealType
  foodName := u.foodName.getD m.foodName
  brandName := u.brandName.getD m.brandName
  description := u.description.getD m.description
  imageUrl := u.imageUrl.getD m.imageUrl
  calories := u.calories.getD m.calories
  fat := u.fat.getD m.fat
  carbs := u.carbs.getD m.carbs
  protein := u.protein.getD m.protein
  quantity := u.quantity.getD m.quantity
  unit := u.unit.getD m.unit
  analysisPending := u.analysisPending.getD m.analysisPending
  userProvidedImage := u.userProvidedImage.getD m.userProvidedImage
  timestamp := m.timestamp

/-- The `meals` table: rows plus the serial-id counter. -/
structure Store where
  meals : List Meal
  nextId : Nat
deriving Repr, DecidableEq

/-- `DatabaseStorage.getMealById` (`server/storage.ts:110-116`). -/
def getMealById (s : Store) (id : Nat) : Option Meal :=
  s.meals.find? (fun m => m.id == id)

/-- The data carried by `storage.createMeal`'s argument (everything of a
`Meal` except `id` and `timestamp`, which `createMeal` fills in). -/
structure InsertMeal where
  userId : Nat
  mealType : String
  foodName : String
  brandName : String
  description : String
  imageUrl : String
  calories : Int
  fat : Int
  carbs : Int
  protein : Int
  quantity : Option Int
  unit : Option String
  analysisPending : Bool
  userProvidedImage : Bool
deriving Repr, DecidableEq

/-- `DatabaseStorage.createMeal` (`server/storage.ts:118-127`): insert
with the serial id and `timestamp: new Date()`. -/
def createMeal (s : Store) (d : InsertMeal) (now : Int) : Store × Meal :=
  let m : Meal :=
    { id := s.nextId, userId := d.userId, mealType := d.mealType
      foodName := d.foodName, brandName := d.brandName
      description := d.description, imageUrl := d.imageUrl
      calories := d.calories, fat := d.fat, carbs := d.carbs
      protein := d.protein, quantity := d.quantity, unit := d.unit
      analysisPending := d.analysisPending
      userProvidedImage := d.userProvidedImage, timestamp := now }
  (⟨s.meals ++ [m], s.nextId + 1⟩, m)

/-- `DatabaseStorage.updateMeal` (`server/storage.ts:129-136`): set the
given columns on the row with the given id, returning the updated row
(`none` when no row matched). -/
def updateMeal (s : Store) (id : Nat) (u : MealUpdate) : Store × Option Meal :=
  match getMealById s id with
  | none => (s, none)
  | some m =>
    let m' := applyUpdate m u
    (⟨s.meals.map (fun x => if x.id == id then m' else x), s.nextId⟩, some m')

/-- `DatabaseStorage.deleteMeal` (`server/storage.ts:138-144`): delete the
row, reporting whether a row was deleted. -/
def deleteMeal (s : Store) (id : Nat) : Store × Bool :=
  (⟨s.meals.filter (fun m => m.id != id), s.nextId⟩,
   s.meals.any (fun m => m.id == id))

/-! ## Event traces

Each handler records the externally visible actions it performs, in
program order: store writes, Analyzer/Synthesizer invocations, the HTTP
response, and `broadcastMealUpdate` (the `meal_updated` WebSocket fan-out,
`server/routes.ts:533-544`). -/

inductive Ev where
  /-- `storage.createMeal` call, with the row written. -/
  | storeCreate (meal : Meal)
  /-- `storage.updateMeal` call, with the partial update written. -/
  | storeUpdate (mealId : Nat) (u : MealUpdate)
  /-- `storage.deleteMeal` call. -/
  | storeDelete (mealId : Nat)
  /-- the HTTP response is sent to the client. -/
  | respond
  /-- `analyzeFood` invocation. -/
  | analyzerCall
  /-- `generateFoodImage` invocation. -/
  | synthCall
  /-- `global.broadcastMealUpdate(mealId)`: the `meal_updated` push. -/
  | broadcast (mealId : Nat)
deriving Repr, DecidableEq

/-! ## `POST /api/meals` (`server/routes.ts:102-283`) -/

/-- An uploaded multipart file (multer memory storage). -/
structure UploadFile where
  mime : String
  b64 : String
deriving Repr, DecidableEq

/-- `` `data:${mime};base64,${b64}` `` -/
def dataUrl (f : UploadFile) : String :=
  "data:" ++ f.mime ++ ";base64," ++ f.b64

/-- `JSON.stringify` of an array of image data-URLs
(no escaping needed for the data-URL alphabet). -/
def jsonStringifyArr (xs : List String) : String :=
  "[" ++ String.intercalate "," (xs.map (fun s => "\"" ++ s ++ "\"")) ++ "]"

/-- The create request: authenticated user, multipart form fields
(missing field = `none`) and the uploaded files (`image` plus
`additionalImage1..4`). -/
structure CreateReq where
  userId : Nat
  mealType : Option String := none
  foodName : Option String := none
  brandName : Option String := none
  description : Option String := none
  quantity : Option Int := none
  unit : Option String := none
  mainImage : Option UploadFile := none
  additionalImages : List UploadFile := []
deriving Repr, DecidableEq

/-- Outcome of the image-processing block (`server/routes.ts:154-199`). -/
structure ImageSetup where
  imageBase64 : String
  imageUrl : String
  userProvidedImage : Bool
  willGenerateImage : Bool
deriving Repr, DecidableEq

/-- `server/routes.ts:154-199`: one image is stored as a single data URL,
several as a JSON array; `imageBase64` is the main image's payload (or the
first additional image's when there is no main image); with no images and
a description, an image will be generated asynchronously. -/
def processImages (req : CreateReq) (hasDescription : Bool) : ImageSetup :=
  match req.mainImage, req.additionalImages with
  | some f, [] => ⟨f.b64, dataUrl f, true, false⟩
  | some f, adds@(_ :: _) =>
    ⟨f.b64, jsonStringifyArr (dataUrl f :: adds.map dataUrl), true, false⟩
  | none, [a] => ⟨a.b64, dataUrl a, true, false⟩
  | none, adds@(a :: _ :: _) =>
    ⟨a.b64, jsonStringifyArr (adds.map dataUrl), true, false⟩
  | none, [] =>
    if hasDescription then ⟨"", "", false, true⟩ else ⟨"", "", false, false⟩

/-- The "AI suggestion only when the user did not supply the field" merge
(`server/routes.ts:220-237` in the create path, `409-424` in the update
path): `if (!mealData.foodName && analysis.foodName) ... foodName`, and
likewise for `brandName`, `quantity`, `unit`. -/
def mergeInferred (u : MealUpdate) (cur : Meal) (a : MealAnalysis) : MealUpdate :=
  let u1 := if cur.foodName == "" && truthyOS a.foodName then
    { u with foodName := a.foodName } else u
  let u2 := if cur.brandName == "" && truthyOS a.brandName then
    { u1 with brandName := a.brandName } else u1
  let u3 := if !truthyOI cur.quantity && truthyOI a.quantity then
    { u2 with quantity := some a.quantity } else u2
  if !truthyOS cur.unit && truthyOS a.unit then
    { u3 with unit := some a.unit } else u3

/-- The asynchronous continuation of the create handler
(`server/routes.ts:207-278`), run after the response is sent.  `analyzer`
is the outcome of the awaited `analyzeFood` call, `synth` of
`generateFoodImage`.  On an Analyzer throw the catch block writes only
`analysisPending: false` and sends no broadcast. -/
def createAsync (s : Store) (meal : Meal) (willGenerate : Bool)
    (analyzer : Except Unit MealAnalysis) (synth : Except Unit String) :
    Store × List Ev :=
  match analyzer with
  | .error _ =>
    let u : MealUpdate := { analysisPending := some false }
    ((updateMeal s meal.id u).1, [Ev.analyzerCall, Ev.storeUpdate meal.id u])
  | .ok a =>
    let u0 : MealUpdate :=
      { calories := some a.calories, fat := some a.fat, carbs := some a.carbs
        protein := some (jsOrI a.protein 0), analysisPending := some false }
    let u1 := mergeInferred u0 meal a
    let (u2, evSyn) :=
      if willGenerate then
        match synth with
        | .ok b =>
          ({ u1 with imageUrl := some ("data:image/png;base64," ++ b) },
           [Ev.synthCall])
        | .error _ => (u1, [Ev.synthCall])
      else (u1, [])
    ((updateMeal s meal.id u2).1,
     [Ev.analyzerCall] ++ evSyn ++ [Ev.storeUpdate meal.id u2, Ev.broadcast meal.id])

instance instDecEqExcept {ε α : Type} [DecidableEq ε] [DecidableEq α] :
    DecidableEq (Except ε α)
  | Except.error e, Except.error e' =>
    if h : e = e' then isTrue (by rw [h])
    else isFalse (by intro hh; cases hh; exact h rfl)
  | Except.error _, Except.ok _ => isFalse (by intro h; cases h)
  | Except.ok _, Except.error _ => isFalse (by intro h; cases h)
  | Except.ok a, Except.ok a' =>
    if h : a = a' then isTrue (by rw [h])
    else isFalse (by intro hh; cases hh; exact h rfl)

/-- Outcome of a handler: final store, HTTP response (`Except.error` is an
error status code), and the event trace. -/
structure HandlerResult where
  store : Store
  resp : Except Nat Meal
  events : List Ev
deriving Repr, DecidableEq

/-- `server/routes.ts:122`: `!!mainImage || additionalImages.length > 0`. -/
def createHasImages (req : CreateReq) : Bool :=
  req.mainImage.isSome || !req.additionalImages.isEmpty

/-- `server/routes.ts:123`:
`!!(req.body.description && req.body.description.trim() !== '')`. -/
def createHasDescription (req : CreateReq) : Bool :=
  match req.description with
  | none => false
  | some d => d != "" && jsTrim d != ""

/-- The placeholder record (`server/routes.ts:130-144` merged with the
image-processing result of 154-199): supplied fields copied, nutrition
zeroed, `analysisPending: true`. -/
def createInsert (req : CreateReq) (mt : String) (img : ImageSetup) :
    InsertMeal where
  userId := req.userId
  mealType := mt
  foodName := jsOrS req.foodName ""
  brandName := jsOrS req.brandName ""
  description := jsOrS req.description ""
  imageUrl := img.imageUrl
  calories := 0
  fat := 0
  carbs := 0
  protein := 0
  quantity := jsOrNullI req.quantity
  unit := jsOrNullS req.unit
  analysisPending := true
  userProvidedImage := img.userProvidedImage

/-- The validated path of the create handler: synchronous `createMeal`,
immediate 201 response, then the asynchronous analysis continuation. -/
def createMainBranch (s : Store) (now : Int) (req : CreateReq) (mt : String)
    (analyzer : Except Unit MealAnalysis) (synth : Except Unit String) :
    HandlerResult :=
  let img := processImages req (createHasDescription req)
  let created := createMeal s (createInsert req mt img) now
  let as := createAsync created.1 created.2 img.willGenerateImage analyzer synth
  ⟨as.1, Except.ok created.2,
   [Ev.storeCreate created.2, Ev.respond] ++ as.2⟩

/-- The `POST /api/meals` handler (`server/routes.ts:102-283`): the
image-or-description gate (121-127), schema validation (147-152:
`mealType` is the only required field the model can miss), then the
validated path. -/
def postMeals (s : Store) (now : Int) (req : CreateReq)
    (analyzer : Except Unit MealAnalysis) (synth : Except Unit String) :
    HandlerResult :=
  if !createHasImages req && !createHasDescription req then
    ⟨s, Except.error 400, []⟩
  else match req.mealType with
  | none => ⟨s, Except.error 400, []⟩
  | some mt => createMainBranch s now req mt analyzer synth

/-! ## `PATCH /api/meals/:id` (`server/routes.ts:286-445`) -/

/-- The JSON body of a PATCH request (`req.body`); `none` = key absent. -/
structure PatchReq where
  mealType : Option String := none
  foodName : Option String := none
  brandName : Option String := none
  description : Option String := none
  imageUrl : Option String := none
  quantity : Option (Option Int) := none
  unit : Option (Option String) := none
deriving Repr, DecidableEq

/-- The spread `{ ...existingMeal, ...updates }` (`server/routes.ts:304`). -/
def applyPatch (m : Meal) (u : PatchReq) : Meal :=
  { m with
    mealType := u.mealType.getD m.mealType
    foodName := u.foodName.getD m.foodName
    brandName := u.brandName.getD m.brandName
    description := u.description.getD m.description
    imageUrl := u.imageUrl.getD m.imageUrl
    quantity := u.quantity.getD m.quantity
    unit := u.unit.getD m.unit }

/-- `server/routes.ts:311-318`: `updates.description &&
updates.description !== existingMeal.description &&
!existingMeal.userProvidedImage`. -/
def patchNeedsImageGeneration (existing : Meal) (u : PatchReq) : Bool :=
  match u.description with
  | none => false
  | some d => d != "" && d != existing.description && !existing.userProvidedImage

/-- `server/routes.ts:321-326`: `updates.imageUrl &&
updates.imageUrl !== existingMeal.imageUrl`. -/
def patchNeedsReanalysis (existing : Meal) (u : PatchReq) : Bool :=
  match u.imageUrl with
  | none => false
  | some v => v != "" && v != existing.imageUrl

/-- The merged candidate record written synchronously
(`server/routes.ts:304-331`): the field merge, `userProvidedImage := true`
when the image changed, `analysisPending := true` when any async work is
scheduled. -/
def patchSyncMeal (existing : Meal) (u : PatchReq) : Meal :=
  let d0 := applyPatch existing u
  let d1 := if patchNeedsReanalysis existing u then
    { d0 with userProvidedImage := true } else d0
  if patchNeedsReanalysis existing u || patchNeedsImageGeneration existing u then
    { d1 with analysisPending := true } else d1

/-- Passing the whole merged object to `storage.updateMeal` (the sync
write at `server/routes.ts:334` sets every column). -/
def fullUpdate (m : Meal) : MealUpdate where
  mealType := some m.mealType
  foodName := some m.foodName
  brandName := some m.brandName
  description := some m.description
  imageUrl := some m.imageUrl
  calories := some m.calories
  fat := some m.fat
  carbs := some m.carbs
  protein := some m.protein
  quantity := some m.quantity
  unit := some m.unit
  analysisPending := some m.analysisPending
  userProvidedImage := some m.userProvidedImage

/-- The asynchronous continuation of the PATCH handler
(`server/routes.ts:340-440`), reached only when re-analysis or image
regeneration is scheduled.  The `imageBase64` extraction (343-363) only
feeds the Analyzer's input, which the trace does not record.  Image
generation has its own inner try/catch (372-395): its failure does not
stop the analysis.  An Analyzer throw reaches the outer catch (435-439),
which writes only `analysisPending: false` — discarding `finalUpdates`,
including a freshly synthesized image. -/
def patchAsync (s : Store) (id : Nat) (mealData : Meal) (needsGen : Bool)
    (analyzer : Except Unit MealAnalysis) (synth : Except Unit String) :
    Store × List Ev :=
  let (f1, evSyn) :=
    if needsGen then
      match synth with
      | .ok b =>
        (({ analysisPending := some false
            imageUrl := some ("data:image/png;base64," ++ b)
            userProvidedImage := some false } : MealUpdate), [Ev.synthCall])
      | .error _ => (({ analysisPending := some false } : MealUpdate), [Ev.synthCall])
    else (({ analysisPending := some false } : MealUpdate), [])
  match analyzer with
  | .ok a =>
    let f2 := { f1 with
      calories := some a.calories, fat := some a.fat, carbs := some a.carbs
      protein := some (jsOrI a.protein 0) }
    let f3 := mergeInferred f2 mealData a
    ((updateMeal s id f3).1,
     evSyn ++ [Ev.analyzerCall, Ev.storeUpdate id f3, Ev.broadcast id])
  | .error _ =>
    let u : MealUpdate := { analysisPending := some false }
    ((updateMeal s id u).1, evSyn ++ [Ev.analyzerCall, Ev.storeUpdate id u])

/-- The `PATCH /api/meals/:id` handler (`server/routes.ts:286-445`):
404 when the record does not exist; otherwise the synchronous merged
write and immediate response, then the asynchronous continuation iff
re-analysis or regeneration was scheduled. -/
def patchMeals (s : Store) (id : Nat) (u : PatchReq)
    (analyzer : Except Unit MealAnalysis) (synth : Except Unit String) :
    HandlerResult :=
  match getMealById s id with
  | none => ⟨s, Except.error 404, []⟩
  | some existing =>
    let needsGen := patchNeedsImageGeneration existing u
    let needsRe := patchNeedsReanalysis existing u
    let mealData := patchSyncMeal existing u
    let upd := updateMeal s id (fullUpdate mealData)
    let evs1 := [Ev.storeUpdate id (fullUpdate mealData), Ev.respond]
    if needsRe || needsGen then
      let as := patchAsync upd.1 id mealData needsGen analyzer synth
      ⟨as.1, Except.ok (upd.2.getD mealData), evs1 ++ as.2⟩
    else
      ⟨upd.1, Except.ok (upd.2.getD mealData), evs1⟩

/-! ## `DELETE /api/meals/:id` (`server/routes.ts:448-467`) -/

/-- Outcome of the delete handler: `Except.ok ()` is the 204 response. -/
structure DeleteResult where
  store : Store
  resp : Except Nat Unit
  events : List Ev
deriving Repr, DecidableEq

/-- The `DELETE /api/meals/:id` handler.  `callerId` is the authenticated
session user; the handler never reads it (there is no ownership check —
it calls `storage.deleteMeal(id)` directly). -/
def deleteMeals (s : Store) (_callerId : Option Nat) (id : Nat) : DeleteResult :=
  let del := deleteMeal s id
  if del.2 then ⟨del.1, Except.ok (), [Ev.storeDelete id, Ev.respond]⟩
  else ⟨del.1, Except.error 404, [Ev.storeDelete id, Ev.respond]⟩

/-! ## `GET /api/meals` day query (`server/routes.ts:38-68`,
`server/storage.ts:66-108`) -/

/-- `DatabaseStorage.getMealsByDate` (`server/storage.ts:66-108`).
`dayStart` is the UTC-midnight timestamp of the requested calendar date,
exactly as the route computes it via `new Date(dateStr + 'T00:00:00Z')`
(`server/routes.ts:44`), so `startOfDay = dayStart` and
`endOfDay = dayStart + 86400000` (the next UTC midnight); the filter is
`gte` / `lte`, inclusive at both ends. -/
def getMealsByDate (s : Store) (dayStart : Int) (userId : Option Nat) :
    List Meal :=
  s.meals.filter (fun m =>
    decide (dayStart ≤ m.timestamp) &&
    decide (m.timestamp ≤ dayStart + 86400000) &&
    (match userId with
     | some u => m.userId == u
     | none => true))

/-- The `GET /api/meals` handler (`server/routes.ts:38-68`).  The client
sends a `tzOffset` query parameter (`client/src/pages/home.tsx`), modelled
here as the `tzOffset` argument; the handler never reads it and calls
`storage.getMealsByDate(date, userId)` without it. -/
def getMealsHandler (s : Store) (dayStart : Int) (_tzOffset : Option Int)
    (userId : Option Nat) : List Meal :=
  getMealsByDate s dayStart userId

/-- Modelled from the spec: membership of an event timestamp in the
caller's local calendar day ("meals bucketed by its own
midnight-to-midnight").  `tzOffset` is in minutes as produced by the
client's `new Date().getTimezoneOffset()` (UTC minus local; `+300` for
UTC-5), so local time is `ts - tzOffset*60000` and the local day whose
date has UTC midnight `dayStart` contains `ts` iff
`dayStart + tzOffset*60000 ≤ ts < dayStart + tzOffset*60000 + 86400000`. -/
def localDayContains (tzOffset dayStart ts : Int) : Bool :=
  decide (dayStart + tzOffset * 60000 ≤ ts) &&
  decide (ts < dayStart + tzOffset * 60000 + 86400000)

/-! ## Store lemmas -/

/-- Well-formedness of the `meals` table: the serial id counter dominates
every row id, and row ids are unique (primary key). -/
def Store.WF (s : Store) : Prop :=
  (∀ m ∈ s.meals, m.id < s.nextId) ∧ s.meals.Pairwise (fun a b => a.id ≠ b.id)

instance (s : Store) : Decidable s.WF := by
  unfold Store.WF
  exact instDecidableAnd

theorem find?_append_new (l : List Meal) (m : Meal)
    (h : ∀ x ∈ l, x.id ≠ m.id) :
    (l ++ [m]).find? (fun x => x.id == m.id) = some m := by
  induction l with
  | nil => simp
  | cons a t ih =>
    have ha : (a.id == m.id) = false := by
      simp only [beq_eq_false_iff_ne, ne_eq]
      exact h a (List.mem_cons_self a t)
    simp only [List.cons_append, List.find?_cons, ha]
    exact ih (fun x hx => h x (List.mem_cons_of_mem a hx))

theorem getMealById_createMeal (s : Store) (hwf : s.WF) (d : InsertMeal)
    (now : Int) :
    getMealById (createMeal s d now).1 (createMeal s d now).2.id =
      some (createMeal s d now).2 := by
  have h : ∀ x ∈ s.meals, x.id ≠ (createMeal s d now).2.id := by
    intro x hx
    exact Nat.ne_of_lt (hwf.1 x hx)
  exact find?_append_new s.meals (createMeal s d now).2 h

theorem find?_map_update (l : List Meal) (id : Nat) (m m' : Meal)
    (hid : m'.id = id)
    (h : l.find? (fun x => x.id == id) = some m) :
    (l.map (fun x => if x.id == id then m' else x)).find?
      (fun x => x.id == id) = some m' := by
  induction l with
  | nil => simp at h
  | cons a t ih =>
    by_cases ha : (a.id == id) = true
    · have hm' : (m'.id == id) = true := by simp [hid]
      rw [List.map_cons, if_pos ha,
        @List.find?_cons_of_pos Meal (fun x => x.id == id) m' _ hm']
    · rw [@List.find?_cons_of_neg Meal (fun x => x.id == id) a _ ha] at h
      rw [List.map_cons, if_neg ha,
        @List.find?_cons_of_neg Meal (fun x => x.id == id) a _ ha]
      exact ih h

theorem updateMeal_snd {s : Store} {id : Nat} {m : Meal} (u : MealUpdate)
    (h : getMealById s id = some m) :
    (updateMeal s id u).2 = some (applyUpdate m u) := by
  simp [updateMeal, h]

theorem getMealById_updateMeal_self {s : Store} {id : Nat} {m : Meal}
    (u : MealUpdate) (h : getMealById s id = some m) :
    getMealById (updateMeal s id u).1 id = some (applyUpdate m u) := by
  have hmid : m.id = id := by
    have := List.find?_some h
    simpa using this
  have h' : s.meals.find? (fun x => x.id == id) = some m := h
  simp only [updateMeal, h]
  exact find?_map_update s.meals id m (applyUpdate m u)
    (by simp [applyUpdate, hmid]) h'

theorem applyUpdate_pendingOnly (m : Meal) :
    applyUpdate m { analysisPending := some false } =
      { m with analysisPending := false } := rfl

theorem applyUpdate_fullUpdate (m x : Meal) :
    applyUpdate m (fullUpdate x) =
      { x with id := m.id, userId := m.userId, timestamp := m.timestamp } := rfl

/-! Field behaviour of `mergeInferred`: it only ever touches the four
descriptive fields. -/

theorem mergeInferred_calories (u : MealUpdate) (cur : Meal) (a : MealAnalysis) :
    (mergeInferred u cur a).calories = u.calories := by
  simp only [mergeInferred]
  split_ifs <;> rfl

theorem mergeInferred_fat (u : MealUpdate) (cur : Meal) (a : MealAnalysis) :
    (mergeInferred u cur a).fat = u.fat := by
  simp only [mergeInferred]
  split_ifs <;> rfl

theorem mergeInferred_carbs (u : MealUpdate) (cur : Meal) (a : MealAnalysis) :
    (mergeInferred u cur a).carbs = u.carbs := by
  simp only [mergeInferred]
  split_ifs <;> rfl

theorem mergeInferred_protein (u : MealUpdate) (cur : Meal) (a : MealAnalysis) :
    (mergeInferred u cur a).protein = u.protein := by
  simp only [mergeInferred]
  split_ifs <;> rfl

theorem mergeInferred_analysisPending (u : MealUpdate) (cur : Meal)
    (a : MealAnalysis) :
    (mergeInferred u cur a).analysisPending = u.analysisPending := by
  simp only [mergeInferred]
  split_ifs <;> rfl

theorem mergeInferred_imageUrl (u : MealUpdate) (cur : Meal) (a : MealAnalysis) :
    (mergeInferred u cur a).imageUrl = u.imageUrl := by
  simp only [mergeInferred]
  split_ifs <;> rfl

theorem mergeInferred_userProvidedImage (u : MealUpdate) (cur : Meal)
    (a : MealAnalysis) :
    (mergeInferred u cur a).userProvidedImage = u.userProvidedImage := by
  simp only [mergeInferred]
  split_ifs <;> rfl

theorem mergeInferred_foodName (u : MealUpdate) (cur : Meal) (a : MealAnalysis) :
    (mergeInferred u cur a).foodName =
      if cur.foodName == "" && truthyOS a.foodName then a.foodName
      else u.foodName := by
  simp only [mergeInferred]
  split_ifs <;> rfl

theorem mergeInferred_brandName (u : MealUpdate) (cur : Meal) (a : MealAnalysis) :
    (mergeInferred u cur a).brandName =
      if cur.brandName == "" && truthyOS a.brandName then a.brandName
      else u.brandName := by
  simp only [mergeInferred]
  split_ifs <;> rfl

theorem mergeInferred_quantity (u : MealUpdate) (cur : Meal) (a : MealAnalysis) :
    (mergeInferred u cur a).quantity =
      if !truthyOI cur.quantity && truthyOI a.quantity then some a.quantity
      else u.quantity := by
  simp only [mergeInferred]
  split_ifs <;> rfl

theorem mergeInferred_unit (u : MealUpdate) (cur : Meal) (a : MealAnalysis) :
    (mergeInferred u cur a).unit =
      if !truthyOS cur.unit && truthyOS a.unit then some a.unit
      else u.unit := by
  simp only [mergeInferred]
  split_ifs <;> rfl

theorem patchSyncMeal_id (e : Meal) (u : PatchReq) :
    (patchSyncMeal e u).id = e.id := by
  simp only [patchSyncMeal, applyPatch]
  split_ifs <;> rfl

theorem patchSyncMeal_userId (e : Meal) (u : PatchReq) :
    (patchSyncMeal e u).userId = e.userId := by
  simp only [patchSyncMeal, applyPatch]
  split_ifs <;> rfl

theorem patchSyncMeal_timestamp (e : Meal) (u : PatchReq) :
    (patchSyncMeal e u).timestamp = e.timestamp := by
  simp only [patchSyncMeal, applyPatch]
  split_ifs <;> rfl

theorem applyUpdate_fullUpdate_sync (e : Meal) (u : PatchReq) :
    applyUpdate e (fullUpdate (patchSyncMeal e u)) = patchSyncMeal e u := by
  rw [applyUpdate_fullUpdate]
  have h1 := patchSyncMeal_id e u
  have h2 := patchSyncMeal_userId e u
  have h3 := patchSyncMeal_timestamp e u
  cases hm : patchSyncMeal e u
  simp_all

/-! ## Dispatch lemmas for the create handler -/

/-- The meal row written synchronously by the validated create path. -/
def createdMeal (s : Store) (now : Int) (req : CreateReq) (mt : String) : Meal :=
  (createMeal s (createInsert req mt (processImages req (createHasDescription req))) now).2

theorem createMainBranch_resp (s : Store) (now : Int) (req : CreateReq)
    (mt : String) (an : Except Unit MealAnalysis) (syn : Except Unit String) :
    (createMainBranch s now req mt an syn).resp =
      Except.ok (createdMeal s now req mt) := rfl

theorem postMeals_ok {s : Store} {now : Int} {req : CreateReq}
    {an : Except Unit MealAnalysis} {syn : Except Unit String} {m : Meal}
    (hresp : (postMeals s now req an syn).resp = Except.ok m) :
    ∃ mt, req.mealType = some mt ∧
      postMeals s now req an syn = createMainBranch s now req mt an syn := by
  by_cases hv : (!createHasImages req && !createHasDescription req) = true
  · rw [postMeals, if_pos hv] at hresp
    simp at hresp
  · cases hmt : req.mealType with
    | none =>
      rw [postMeals, if_neg hv, hmt] at hresp
      simp at hresp
    | some mt =>
      refine ⟨mt, rfl, ?_⟩
      rw [postMeals, if_neg hv, hmt]

theorem createdMeal_placeholder (s : Store) (now : Int) (req : CreateReq)
    (mt : String) :
    (createdMeal s now req mt).calories = 0 ∧
    (createdMeal s now req mt).fat = 0 ∧
    (createdMeal s now req mt).carbs = 0 ∧
    (createdMeal s now req mt).protein = 0 ∧
    (createdMeal s now req mt).analysisPending = true :=
  ⟨rfl, rfl, rfl, rfl, rfl⟩

/-! ## Concrete fixtures -/

/-- A description-only meal row (AI image absent, provenance flag false),
as the create path would store it. -/
def exMeal : Meal where
  id := 1
  userId := 2
  mealType := "lunch"
  foodName := ""
  brandName := ""
  description := "a banana"
  imageUrl := ""
  calories := 0
  fat := 0
  carbs := 0
  protein := 0
  quantity := none
  unit := none
  analysisPending := false
  userProvidedImage := false
  timestamp := 100

def exStore : Store := ⟨[exMeal], 2⟩

/-- A meal whose event timestamp is 23:50 local time in UTC-5 on the
local calendar day starting at epoch 0: `28*3600000 + 50*60000 ms`
(04:50 UTC on the **next** UTC day). -/
def lateMeal : Meal := { exMeal with id := 3, timestamp := 103800000 }

def tzStore : Store := ⟨[lateMeal], 4⟩

/-- A raw upstream reply whose `calories` is a negative number. -/
def rawNeg : RawAnalysis := { calories := some (-5) }

/-- What `analyzeFood` makes of `rawNeg`. -/
def negAnalysis : MealAnalysis := { calories := -5, fat := 0, carbs := 0, protein := 0 }

/-- A description-only create request. -/
def exCreateReq : CreateReq :=
  { userId := 2, mealType := some "lunch", description := some "mystery stew" }

/-- A whitespace-only-description, zero-image create request. -/
def wsReq : CreateReq :=
  { userId := 2, mealType := some "lunch", description := some "   " }

/-- The placeholder row the create path writes for `exCreateReq` on
`exStore` at time 50. -/
def exCreatedMeal : Meal where
  id := 2
  userId := 2
  mealType := "lunch"
  foodName := ""
  brandName := ""
  description := "mystery stew"
  imageUrl := ""
  calories := 0
  fat := 0
  carbs := 0
  protein := 0
  quantity := none
  unit := none
  analysisPending := true
  userProvidedImage := false
  timestamp := 50

theorem jsRound_zero : jsRound 0 = 0 := by
  norm_num [jsRound_eq_floor]

theorem analyzeFoodOk_rawNeg : analyzeFoodOk rawNeg = negAnalysis := by
  have h1 : jsRound (-5 : ℚ) = -5 := by
    norm_num [jsRound_eq_floor]
  unfold analyzeFoodOk rawNeg negAnalysis
  simp [MealAnalysis.mk.injEq, h1, jsRound_zero, jsNumOr0, jsOrNullS]

/-! ## C4 — the day query and the caller's timezone offset -/

/-- **C4** (code bug, evaluated at the failing input): the `GET
/api/meals` handler ignores the `tzOffset` the client sends (first
conjunct: the result is independent of it), and a meal whose event
timestamp is local 23:50 in UTC-5 (`lateMeal`, `tzOffset = 300` in
`getTimezoneOffset` convention) lies inside its local calendar day
(second conjunct) yet is *not* returned by the query for that local date
(last conjunct): the code buckets by the UTC day
`[dayStart, dayStart + 86400000]` regardless of the offset. -/
theorem day_query_ignores_tzOffset :
    (∀ (s : Store) (d : Int) (tz tz' : Option Int) (uid : Option Nat),
      getMealsHandler s d tz uid = getMealsHandler s d tz' uid) ∧
    localDayContains 300 0 lateMeal.timestamp = true ∧
    lateMeal.userId = 2 ∧
    getMealsHandler tzStore 0 (some 300) (some 2) = [] :=
  ⟨fun _ _ _ _ _ => rfl, by decide, by decide, by decide⟩

/-! ## C5 — numeric coercion in `analyzeFood` -/

/-- **C5 counterexample**: `analyzeFood` does *not* coerce negative
values to zero: `Math.round(Number(-5) || 0) = -5`, so an upstream reply
with `calories: -5` yields a negative `calories` in the returned
`MealAnalysis`, contradicting the claim that every returned value is
non-negative. -/
theorem analyzeFood_negative_not_clamped :
    (analyzeFoodOk rawNeg).calories = -5 ∧ (analyzeFoodOk rawNeg).calories < 0 := by
  rw [analyzeFoodOk_rawNeg]
  exact ⟨rfl, by norm_num [negAnalysis]⟩

/-- **C5 amended**: for every upstream reply, `analyzeFood` returns
integer values within 1/2 of the raw value (i.e. fractional values are
rounded to a nearest integer), a missing/NaN value is coerced to zero,
and the result is non-negative *whenever the raw value is non-negative*
— but a negative raw value is rounded and passed through, not floored to
zero. -/
theorem analyzeFood_coercion (r : RawAnalysis) :
    (|((analyzeFoodOk r).calories : ℚ) - jsNumOr0 r.calories| ≤ 1/2 ∧
     |((analyzeFoodOk r).fat : ℚ) - jsNumOr0 r.fat| ≤ 1/2 ∧
     |((analyzeFoodOk r).carbs : ℚ) - jsNumOr0 r.carbs| ≤ 1/2 ∧
     |((analyzeFoodOk r).protein : ℚ) - jsNumOr0 r.protein| ≤ 1/2) ∧
    (r.calories = none → (analyzeFoodOk r).calories = 0) ∧
    (r.fat = none → (analyzeFoodOk r).fat = 0) ∧
    (r.carbs = none → (analyzeFoodOk r).carbs = 0) ∧
    (r.protein = none → (analyzeFoodOk r).protein = 0) ∧
    (0 ≤ jsNumOr0 r.calories → 0 ≤ (analyzeFoodOk r).calories) ∧
    (0 ≤ jsNumOr0 r.fat → 0 ≤ (analyzeFoodOk r).fat) ∧
    (0 ≤ jsNumOr0 r.carbs → 0 ≤ (analyzeFoodOk r).carbs) ∧
    (0 ≤ jsNumOr0 r.protein → 0 ≤ (analyzeFoodOk r).protein) := by
  refine ⟨⟨jsRound_le _, jsRound_le _, jsRound_le _, jsRound_le _⟩,
    ?_, ?_, ?_, ?_,
    fun h => jsRound_nonneg h, fun h => jsRound_nonneg h,
    fun h => jsRound_nonneg h, fun h => jsRound_nonneg h⟩
  all_goals intro h
  all_goals show jsRound (jsNumOr0 _) = 0
  all_goals rw [h]
  all_goals exact jsRound_zero

/-- Witness for `analyzeFood_coercion` at a concrete input: a reply with
no `calories` field yields `calories = 0`. -/
theorem analyzeFood_coercion_witness :
    (analyzeFoodOk { : RawAnalysis }).calories = 0 :=
  (analyzeFood_coercion { : RawAnalysis }).2.1 rfl

/-! ## C6 — the create validation gate -/

/-- **C6**: a create request with zero images and an empty or
whitespace-only description is rejected with a 400 validation error
before any write: the store is unchanged and no store/AI/broadcast event
happens. -/
theorem create_validation_gate (s : Store) (now : Int) (req : CreateReq)
    (an : Except Unit MealAnalysis) (syn : Except Unit String)
    (himg : req.mainImage = none) (hadd : req.additionalImages = [])
    (hdesc : jsTrim (req.description.getD "") = "") :
    (postMeals s now req an syn).resp = Except.error 400 ∧
    (postMeals s now req an syn).store = s ∧
    (postMeals s now req an syn).events = [] := by
  have himages : createHasImages req = false := by
    simp [createHasImages, himg, hadd]
  have hdesc' : createHasDescription req = false := by
    cases hd : req.description with
    | none => simp [createHasDescription, hd]
    | some d =>
      rw [hd] at hdesc
      simp only [Option.getD_some] at hdesc
      simp [createHasDescription, hd, hdesc]
  refine ⟨?_, ?_, ?_⟩ <;> simp [postMeals, himages, hdesc']

/-- Witness for `create_validation_gate`: the concrete whitespace-only
request `wsReq` is rejected and leaves `exStore` unchanged. -/
theorem create_validation_gate_witness :
    (postMeals exStore 50 wsReq (Except.error ()) (Except.error ())).resp =
      Except.error 400 ∧
    (postMeals exStore 50 wsReq (Except.error ()) (Except.error ())).store =
      exStore ∧
    (postMeals exStore 50 wsReq (Except.error ()) (Except.error ())).events = [] :=
  create_validation_gate exStore 50 wsReq (Except.error ()) (Except.error ())
    rfl rfl (by decide)

/-! ## C9 — the delete path -/

/-- **C9 counterexample**: the delete handler performs no ownership
check: `exMeal` (id 1) is owned by user 2, yet a delete issued by user 1
succeeds and removes it — the claim's "removes the record only if it is
owned by the caller" fails. -/
theorem delete_ignores_ownership :
    exMeal.userId = 2 ∧
    (deleteMeals exStore (some 1) 1).resp = Except.ok () ∧
    getMealById (deleteMeals exStore (some 1) 1).store 1 = none := by decide

/-- **C9 amended**: the delete handler removes the record with the given
id *regardless of the caller* (first conjunct: the caller id is never
consulted); deleting an absent id reports 404 and changes nothing; a
delete removes exactly the rows with the targeted id and performs no
side effects beyond the delete itself (no broadcast, no AI calls). -/
theorem delete_semantics (s : Store) (caller : Option Nat) (id : Nat) :
    (∀ caller', deleteMeals s caller id = deleteMeals s caller' id) ∧
    (getMealById s id = none →
      (deleteMeals s caller id).resp = Except.error 404 ∧
      (deleteMeals s caller id).store = s) ∧
    ((deleteMeals s caller id).store.meals =
      s.meals.filter (fun m => m.id != id)) ∧
    ((deleteMeals s caller id).resp = Except.ok () ↔
      s.meals.any (fun m => m.id == id) = true) ∧
    (∀ e ∈ (deleteMeals s caller id).events,
      e = Ev.storeDelete id ∨ e = Ev.respond) := by
  refine ⟨fun _ => rfl, ?_, ?_, ?_, ?_⟩
  · intro h
    have hall : ∀ x ∈ s.meals, ¬((fun m => m.id == id) x = true) :=
      List.find?_eq_none.mp h
    have hany : s.meals.any (fun m => m.id == id) = false := by
      rw [List.any_eq_false]
      exact hall
    have hfilter : s.meals.filter (fun m => m.id != id) = s.meals := by
      rw [List.filter_eq_self]
      intro x hx
      simpa using hall x hx
    constructor
    · simp [deleteMeals, deleteMeal, hany]
    · simp only [deleteMeals, deleteMeal, hany]
      cases s
      simp [hfilter]
  · simp only [deleteMeals, deleteMeal]
    split <;> rfl
  · simp only [deleteMeals, deleteMeal]
    by_cases hany : s.meals.any (fun m => m.id == id) = true
    · simp [hany]
    · have : s.meals.any (fun m => m.id == id) = false := by simpa using hany
      simp [this]
  · intro e he
    simp only [deleteMeals, deleteMeal] at he
    split at he <;> simpa using he

/-- Witness for `delete_semantics`: deleting the absent id 99 from
`exStore` reports 404 and leaves the store unchanged. -/
theorem delete_semantics_witness :
    (deleteMeals exStore (some 2) 99).resp = Except.error 404 ∧
    (deleteMeals exStore (some 2) 99).store = exStore :=
  (delete_semantics exStore (some 2) 99).2.1 (by decide)

/-! ## C3 — user-supplied fields win the merge -/

/-- A create request supplying `foodName = "Pizza"`. -/
def pizzaReq : CreateReq :=
  { userId := 2, mealType := some "dinner", foodName := some "Pizza"
    description := some "a slice" }

/-- An Analyzer result inferring `foodName = "Margherita Pizza"`. -/
def pizzaAnalysis : MealAnalysis :=
  { calories := 300, fat := 10, carbs := 30, protein := 12
    foodName := some "Margherita Pizza" }

/-- A stored meal whose `foodName` was user-supplied. -/
def pizzaMeal : Meal := { exMeal with foodName := "Pizza" }

/-- **C3**: in the merge applied by both the create path
(`server/routes.ts:220-237`) and the update path (409-424), an inferred
`foodName`/`brandName`/`quantity`/`unit` is applied only when the
candidate record's field is empty (a user-supplied value is non-empty,
and JavaScript truthiness makes an empty string / zero "not supplied"),
so user-supplied values always win; the last conjunct is the claim's
concrete instance: a create with `foodName="Pizza"` whose Analyzer
returns `foodName="Margherita Pizza"` ends with `foodName = "Pizza"` in
the store. -/
theorem user_supplied_fields_win (u : MealUpdate) (cur : Meal)
    (a : MealAnalysis) :
    (cur.foodName ≠ "" → (mergeInferred u cur a).foodName = u.foodName) ∧
    ((mergeInferred u cur a).foodName ≠ u.foodName →
      cur.foodName = "" ∧ (mergeInferred u cur a).foodName = a.foodName) ∧
    (cur.brandName ≠ "" → (mergeInferred u cur a).brandName = u.brandName) ∧
    ((mergeInferred u cur a).brandName ≠ u.brandName →
      cur.brandName = "" ∧ (mergeInferred u cur a).brandName = a.brandName) ∧
    (truthyOI cur.quantity = true → (mergeInferred u cur a).quantity = u.quantity) ∧
    ((mergeInferred u cur a).quantity ≠ u.quantity →
      truthyOI cur.quantity = false ∧
      (mergeInferred u cur a).quantity = some a.quantity) ∧
    (truthyOS cur.unit = true → (mergeInferred u cur a).unit = u.unit) ∧
    ((mergeInferred u cur a).unit ≠ u.unit →
      truthyOS cur.unit = false ∧ (mergeInferred u cur a).unit = some a.unit) ∧
    ((getMealById (postMeals exStore 50 pizzaReq (Except.ok pizzaAnalysis)
        (Except.error ())).store 2).map Meal.foodName = some "Pizza") := by
  refine ⟨?_, ?_, ?_, ?_, ?_, ?_, ?_, ?_, by decide⟩
  · intro h
    rw [mergeInferred_foodName]
    have hc : (cur.foodName == "") = false := by simp [h]
    simp [hc]
  · intro hne
    rw [mergeInferred_foodName] at hne ⊢
    by_cases hc : (cur.foodName == "" && truthyOS a.foodName) = true
    · refine ⟨?_, by rw [if_pos hc]⟩
      have := (Bool.and_eq_true _ _).mp hc
      simpa using this.1
    · rw [if_neg hc] at hne
      exact absurd rfl hne
  · intro h
    rw [mergeInferred_brandName]
    have hc : (cur.brandName == "") = false := by simp [h]
    simp [hc]
  · intro hne
    rw [mergeInferred_brandName] at hne ⊢
    by_cases hc : (cur.brandName == "" && truthyOS a.brandName) = true
    · refine ⟨?_, by rw [if_pos hc]⟩
      have := (Bool.and_eq_true _ _).mp hc
      simpa using this.1
    · rw [if_neg hc] at hne
      exact absurd rfl hne
  · intro h
    rw [mergeInferred_quantity]
    simp [h]
  · intro hne
    rw [mergeInferred_quantity] at hne ⊢
    by_cases hc : (!truthyOI cur.quantity && truthyOI a.quantity) = true
    · refine ⟨?_, by rw [if_pos hc]⟩
      have := (Bool.and_eq_true _ _).mp hc
      simpa using this.1
    · rw [if_neg hc] at hne
      exact absurd rfl hne
  · intro h
    rw [mergeInferred_unit]
    simp [h]
  · intro hne
    rw [mergeInferred_unit] at hne ⊢
    by_cases hc : (!truthyOS cur.unit && truthyOS a.unit) = true
    · refine ⟨?_, by rw [if_pos hc]⟩
      have := (Bool.and_eq_true _ _).mp hc
      simpa using this.1
    · rw [if_neg hc] at hne
      exact absurd rfl hne

/-- Witness for `user_supplied_fields_win`: with the user-supplied
`foodName = "Pizza"` in the candidate record, the merge keeps the update
unchanged. -/
theorem user_supplied_fields_win_witness :
    (mergeInferred { : MealUpdate } pizzaMeal pizzaAnalysis).foodName =
      ({ : MealUpdate }).foodName :=
  (user_supplied_fields_win { : MealUpdate } pizzaMeal pizzaAnalysis).1
    (by decide)

/-! ## C1 — PATCH smart-regeneration decision rules -/

/-- **C1**: for a PATCH of an existing record ("contains a description /
an imageUrl" read as supplying a *non-empty* value, JavaScript
truthiness): (i) image regeneration is scheduled iff the request
supplies a description different from the stored one and the stored
record's `userProvidedImage` is false; (ii) nutrition re-analysis is
scheduled iff the request supplies an imageUrl different from the stored
one, and then the synchronously persisted record has
`userProvidedImage = true`; (iii) if either is scheduled the
synchronously persisted record has `analysisPending = true`; the trace
starts with exactly that synchronous write, which is also the response;
the Synthesizer is invoked iff regeneration was scheduled; (iv) if
neither is scheduled the update completes synchronously — the trace is
just the write and the response, with no Analyzer/Synthesizer call and
no broadcast. -/
theorem patch_smart_regeneration (s : Store) (id : Nat) (u : PatchReq)
    (an : Except Unit MealAnalysis) (syn : Except Unit String)
    (existing : Meal) (h : getMealById s id = some existing) :
    (patchNeedsImageGeneration existing u = true ↔
      ((∃ d, u.description = some d ∧ d ≠ "" ∧ d ≠ existing.description) ∧
        existing.userProvidedImage = false)) ∧
    (patchNeedsReanalysis existing u = true ↔
      (∃ v, u.imageUrl = some v ∧ v ≠ "" ∧ v ≠ existing.imageUrl)) ∧
    (patchNeedsReanalysis existing u = true →
      (patchSyncMeal existing u).userProvidedImage = true) ∧
    ((patchNeedsReanalysis existing u = true ∨
      patchNeedsImageGeneration existing u = true) →
      (patchSyncMeal existing u).analysisPending = true) ∧
    ((patchMeals s id u an syn).resp = Except.ok (patchSyncMeal existing u)) ∧
    ((patchMeals s id u an syn).events.head? =
      some (Ev.storeUpdate id (fullUpdate (patchSyncMeal existing u)))) ∧
    (Ev.synthCall ∈ (patchMeals s id u an syn).events ↔
      patchNeedsImageGeneration existing u = true) ∧
    (patchNeedsReanalysis existing u = false →
      patchNeedsImageGeneration existing u = false →
      (patchMeals s id u an syn).events =
        [Ev.storeUpdate id (fullUpdate (patchSyncMeal existing u)),
         Ev.respond] ∧
      (∀ i, Ev.broadcast i ∉ (patchMeals s id u an syn).events) ∧
      Ev.analyzerCall ∉ (patchMeals s id u an syn).events) := by
  have hsnd := updateMeal_snd (fullUpdate (patchSyncMeal existing u)) h
  rw [applyUpdate_fullUpdate_sync] at hsnd
  refine ⟨?_, ?_, ?_, ?_, ?_, ?_, ?_, ?_⟩
  · cases hd : u.description with
    | none => simp [patchNeedsImageGeneration, hd]
    | some d =>
      simp [patchNeedsImageGeneration, hd, bne_iff_ne, Bool.not_eq_true',
        and_assoc]
  · cases hi : u.imageUrl with
    | none => simp [patchNeedsReanalysis, hi]
    | some v =>
      simp [patchNeedsReanalysis, hi, bne_iff_ne]
  · intro hre
    simp [patchSyncMeal, hre, apply_ite (Meal.userProvidedImage)]
  · intro hor
    rcases hor with h1 | h1 <;>
      simp [patchSyncMeal, h1, apply_ite (Meal.analysisPending)]
  · simp only [patchMeals, h]
    split <;> simp [hsnd]
  · simp only [patchMeals, h]
    split <;> rfl
  · by_cases hg : patchNeedsImageGeneration existing u = true
    · simp only [patchMeals, h, hg, Bool.or_true, if_true]
      cases an <;> cases syn <;> simp [patchAsync, hg]
    · have hg' : patchNeedsImageGeneration existing u = false := by
        simpa using hg
      by_cases hr : patchNeedsReanalysis existing u = true
      · simp only [patchMeals, h, hg', hr, Bool.true_or, if_true]
        cases an <;> cases syn <;> simp [patchAsync, hg']
      · have hr' : patchNeedsReanalysis existing u = false := by
          simpa using hr
        simp [patchMeals, h, hg', hr']
  · intro h1 h2
    simp [patchMeals, h, h1, h2]

/-- Witness for `patch_smart_regeneration`: a PATCH of `exMeal`
supplying a new image marks the synchronously persisted record as
user-provided. -/
theorem patch_smart_regeneration_witness :
    (patchSyncMeal exMeal
      { imageUrl := some "data:image/jpeg;base64,NEW" }).userProvidedImage =
      true :=
  (patch_smart_regeneration exStore 1
    { imageUrl := some "data:image/jpeg;base64,NEW" } (Except.error ())
    (Except.error ()) exMeal (by decide)).2.2.1 (by decide)

/-! ## Shape lemmas for the asynchronous continuations -/

theorem createAsync_error (s : Store) (m : Meal) (w : Bool)
    (syn : Except Unit String) :
    createAsync s m w (Except.error ()) syn =
      ((updateMeal s m.id { analysisPending := some false }).1,
       [Ev.analyzerCall,
        Ev.storeUpdate m.id { analysisPending := some false }]) := rfl

theorem createAsync_ok (s : Store) (m : Meal) (w : Bool) (a : MealAnalysis)
    (syn : Except Unit String) :
    ∃ u2 : MealUpdate,
      (createAsync s m w (Except.ok a) syn).1 = (updateMeal s m.id u2).1 ∧
      u2.calories = some a.calories ∧ u2.fat = some a.fat ∧
      u2.carbs = some a.carbs ∧ u2.protein = some (jsOrI a.protein 0) ∧
      u2.analysisPending = some false ∧
      (createAsync s m w (Except.ok a) syn).2 =
        [Ev.analyzerCall] ++ (if w then [Ev.synthCall] else []) ++
          [Ev.storeUpdate m.id u2, Ev.broadcast m.id] := by
  cases w with
  | false =>
    refine ⟨mergeInferred
      { calories := some a.calories, fat := some a.fat, carbs := some a.carbs
        protein := some (jsOrI a.protein 0), analysisPending := some false }
      m a, rfl, ?_, ?_, ?_, ?_, ?_, rfl⟩ <;>
      simp [mergeInferred_calories, mergeInferred_fat, mergeInferred_carbs,
        mergeInferred_protein, mergeInferred_analysisPending]
  | true =>
    cases syn with
    | ok b =>
      refine ⟨{ mergeInferred
        { calories := some a.calories, fat := some a.fat, carbs := some a.carbs
          protein := some (jsOrI a.protein 0), analysisPending := some false }
        m a with imageUrl := some ("data:image/png;base64," ++ b) },
        rfl, ?_, ?_, ?_, ?_, ?_, rfl⟩ <;>
        simp [mergeInferred_calories, mergeInferred_fat, mergeInferred_carbs,
          mergeInferred_protein, mergeInferred_analysisPending]
    | error e =>
      refine ⟨mergeInferred
        { calories := some a.calories, fat := some a.fat, carbs := some a.carbs
          protein := some (jsOrI a.protein 0), analysisPending := some false }
        m a, rfl, ?_, ?_, ?_, ?_, ?_, rfl⟩ <;>
        simp [mergeInferred_calories, mergeInferred_fat, mergeInferred_carbs,
          mergeInferred_protein, mergeInferred_analysisPending]

theorem patchAsync_error (s : Store) (id : Nat) (mealData : Meal)
    (needsGen : Bool) (syn : Except Unit String) :
    patchAsync s id mealData needsGen (Except.error ()) syn =
      ((updateMeal s id { analysisPending := some false }).1,
       (if needsGen then [Ev.synthCall] else []) ++
         [Ev.analyzerCall,
          Ev.storeUpdate id { analysisPending := some false }]) := by
  cases needsGen with
  | false => rfl
  | true => cases syn with
    | ok b => rfl
    | error e => rfl

theorem patchAsync_ok (s : Store) (id : Nat) (mealData : Meal)
    (needsGen : Bool) (a : MealAnalysis) (syn : Except Unit String) :
    ∃ f3 : MealUpdate,
      (patchAsync s id mealData needsGen (Except.ok a) syn).1 =
        (updateMeal s id f3).1 ∧
      f3.calories = some a.calories ∧ f3.fat = some a.fat ∧
      f3.carbs = some a.carbs ∧ f3.protein = some (jsOrI a.protein 0) ∧
      f3.analysisPending = some false ∧
      (patchAsync s id mealData needsGen (Except.ok a) syn).2 =
        (if needsGen then [Ev.synthCall] else []) ++
          [Ev.analyzerCall, Ev.storeUpdate id f3, Ev.broadcast id] := by
  cases needsGen with
  | false =>
    refine ⟨mergeInferred
      { analysisPending := some false, calories := some a.calories
        fat := some a.fat, carbs := some a.carbs
        protein := some (jsOrI a.protein 0) } mealData a,
      rfl, ?_, ?_, ?_, ?_, ?_, rfl⟩ <;>
      simp [mergeInferred_calories, mergeInferred_fat, mergeInferred_carbs,
        mergeInferred_protein, mergeInferred_analysisPending]
  | true =>
    cases syn with
    | ok b =>
      refine ⟨mergeInferred
        { analysisPending := some false
          imageUrl := some ("data:image/png;base64," ++ b)
          userProvidedImage := some false, calories := some a.calories
          fat := some a.fat, carbs := some a.carbs
          protein := some (jsOrI a.protein 0) } mealData a,
        rfl, ?_, ?_, ?_, ?_, ?_, rfl⟩ <;>
        simp [mergeInferred_calories, mergeInferred_fat, mergeInferred_carbs,
          mergeInferred_protein, mergeInferred_analysisPending]
    | error e =>
      refine ⟨mergeInferred
        { analysisPending := some false, calories := some a.calories
          fat := some a.fat, carbs := some a.carbs
          protein := some (jsOrI a.protein 0) } mealData a,
        rfl, ?_, ?_, ?_, ?_, ?_, rfl⟩ <;>
        simp [mergeInferred_calories, mergeInferred_fat, mergeInferred_carbs,
          mergeInferred_protein, mergeInferred_analysisPending]

theorem createMainBranch_error_final (s : Store) (hwf : s.WF) (now : Int)
    (req : CreateReq) (mt : String) (syn : Except Unit String) :
    getMealById (createMainBranch s now req mt (Except.error ()) syn).store
      (createdMeal s now req mt).id =
      some { createdMeal s now req mt with analysisPending := false } := by
  have h0 := getMealById_createMeal s hwf
    (createInsert req mt (processImages req (createHasDescription req))) now
  have h1 := getMealById_updateMeal_self
    ({ analysisPending := some false } : MealUpdate) h0
  rw [applyUpdate_pendingOnly] at h1
  exact h1

/-! ## C7 — Analyzer failure degrades silently -/

/-- **C7**: when the `analyzeFood` call throws during the asynchronous
phase of a create (first part) or of an update whose flags scheduled
async work (second part): the record is still updated to
`analysisPending = false` with every other field exactly as the
synchronous write left it (so nutrition keeps its placeholder values);
the synchronous success response already sent to the client is
unaffected; the Analyzer is invoked exactly once (no retry); and no
broadcast is sent. -/
theorem analyzer_failure_degrades_silently :
    (∀ (s : Store), s.WF → ∀ (now : Int) (req : CreateReq)
      (syn : Except Unit String) (m : Meal),
      (postMeals s now req (Except.error ()) syn).resp = Except.ok m →
      getMealById (postMeals s now req (Except.error ()) syn).store m.id =
        some { m with analysisPending := false } ∧
      (postMeals s now req (Except.error ()) syn).events.count
        Ev.analyzerCall = 1 ∧
      (∀ i, Ev.broadcast i ∉
        (postMeals s now req (Except.error ()) syn).events)) ∧
    (∀ (s : Store) (id : Nat) (u : PatchReq) (syn : Except Unit String)
      (existing : Meal), getMealById s id = some existing →
      (patchNeedsReanalysis existing u ||
        patchNeedsImageGeneration existing u) = true →
      (patchMeals s id u (Except.error ()) syn).resp =
        Except.ok (patchSyncMeal existing u) ∧
      getMealById (patchMeals s id u (Except.error ()) syn).store id =
        some { patchSyncMeal existing u with analysisPending := false } ∧
      (patchMeals s id u (Except.error ()) syn).events.count
        Ev.analyzerCall = 1 ∧
      (∀ i, Ev.broadcast i ∉
        (patchMeals s id u (Except.error ()) syn).events)) := by
  constructor
  · intro s hwf now req syn m hresp
    obtain ⟨mt, hmt, heq⟩ := postMeals_ok hresp
    rw [heq] at hresp
    rw [createMainBranch_resp] at hresp
    have hm : createdMeal s now req mt = m := by simpa using hresp
    subst hm
    rw [heq]
    refine ⟨createMainBranch_error_final s hwf now req mt syn, ?_, ?_⟩
    · simp [createMainBranch, createAsync_error]
    · intro i
      simp [createMainBranch, createAsync_error]
  · intro s id u syn existing h hflags
    have h1 : getMealById
        (updateMeal s id (fullUpdate (patchSyncMeal existing u))).1 id =
        some (patchSyncMeal existing u) := by
      have := getMealById_updateMeal_self
        (fullUpdate (patchSyncMeal existing u)) h
      rwa [applyUpdate_fullUpdate_sync] at this
    have h2 := getMealById_updateMeal_self
      ({ analysisPending := some false } : MealUpdate) h1
    rw [applyUpdate_pendingOnly] at h2
    have hsnd := updateMeal_snd (fullUpdate (patchSyncMeal existing u)) h
    rw [applyUpdate_fullUpdate_sync] at hsnd
    refine ⟨?_, ?_, ?_, ?_⟩
    · simp only [patchMeals, h, hflags, if_true]
      simp [hsnd]
    · simp only [patchMeals, h, hflags, if_true]
      rw [patchAsync_error]
      exact h2
    · simp only [patchMeals, h, hflags, if_true]
      rw [patchAsync_error]
      by_cases hg : patchNeedsImageGeneration existing u = true <;>
        simp [hg]
    · intro i
      simp only [patchMeals, h, hflags, if_true]
      rw [patchAsync_error]
      by_cases hg : patchNeedsImageGeneration existing u = true <;>
        simp [hg]

/-- Witness for `analyzer_failure_degrades_silently`: for the concrete
description-only create `exCreateReq` on `exStore`, an Analyzer throw
still leaves the stored record fetchable with `analysisPending = false`
and the placeholder fields intact. -/
theorem analyzer_failure_degrades_silently_witness :
    getMealById (postMeals exStore 50 exCreateReq (Except.error ())
        (Except.error ())).store exCreatedMeal.id =
      some { exCreatedMeal with analysisPending := false } :=
  ((analyzer_failure_degrades_silently).1 exStore (by decide) 50 exCreateReq
    (Except.error ()) exCreatedMeal (by decide)).1

/-! ## C10 — broadcast only on successful reconciliation -/

/-- **C10**: the `meal_updated` broadcast is sent iff the asynchronous
reconciliation reaches its final successful write: when `analyzeFood`
throws, no broadcast ever happens in either the create path (first
conjunct, which also covers the validation-failure branches) or the
update path (third conjunct, which also covers 404 and the
no-async-work branch); when the Analyzer succeeds, the broadcast with
the record's id is sent in the create path (second conjunct) and in the
update path whenever async work was scheduled (fourth conjunct). -/
theorem broadcast_only_on_success :
    (∀ (s : Store) (now : Int) (req : CreateReq) (syn : Except Unit String)
      (i : Nat),
      Ev.broadcast i ∉ (postMeals s now req (Except.error ()) syn).events) ∧
    (∀ (s : Store) (now : Int) (req : CreateReq) (a : MealAnalysis)
      (syn : Except Unit String) (m : Meal),
      (postMeals s now req (Except.ok a) syn).resp = Except.ok m →
      Ev.broadcast m.id ∈ (postMeals s now req (Except.ok a) syn).events) ∧
    (∀ (s : Store) (id : Nat) (u : PatchReq) (syn : Except Unit String)
      (i : Nat),
      Ev.broadcast i ∉ (patchMeals s id u (Except.error ()) syn).events) ∧
    (∀ (s : Store) (id : Nat) (u : PatchReq) (a : MealAnalysis)
      (syn : Except Unit String) (existing : Meal),
      getMealById s id = some existing →
      (patchNeedsReanalysis existing u ||
        patchNeedsImageGeneration existing u) = true →
      Ev.broadcast id ∈ (patchMeals s id u (Except.ok a) syn).events) := by
  refine ⟨?_, ?_, ?_, ?_⟩
  · intro s now req syn i
    by_cases hv : (!createHasImages req && !createHasDescription req) = true
    · simp [postMeals, hv]
    · have hv' : (!createHasImages req && !createHasDescription req) = false := by
        simpa using hv
      cases hmt : req.mealType with
      | none => simp [postMeals, hv', hmt]
      | some mt => simp [postMeals, hv', hmt, createMainBranch, createAsync_error]
  · intro s now req a syn m hresp
    obtain ⟨mt, hmt, heq⟩ := postMeals_ok hresp
    rw [heq] at hresp
    rw [createMainBranch_resp] at hresp
    have hm : createdMeal s now req mt = m := by simpa using hresp
    subst hm
    rw [heq]
    obtain ⟨u2, _, _, _, _, _, _, hev⟩ := createAsync_ok
      (createMeal s (createInsert req mt
        (processImages req (createHasDescription req))) now).1
      (createMeal s (createInsert req mt
        (processImages req (createHasDescription req))) now).2
      (processImages req (createHasDescription req)).willGenerateImage a syn
    show Ev.broadcast (createdMeal s now req mt).id ∈
      (createMainBranch s now req mt (Except.ok a) syn).events
    simp only [createMainBranch, hev]
    simp [createdMeal]
  · intro s id u syn i
    cases hg : getMealById s id with
    | none => simp [patchMeals, hg]
    | some existing =>
      by_cases hflags : (patchNeedsReanalysis existing u ||
          patchNeedsImageGeneration existing u) = true
      · simp only [patchMeals, hg, hflags, if_true]
        rw [patchAsync_error]
        by_cases hgen : patchNeedsImageGeneration existing u = true <;>
          simp [hgen]
      · have hflags' : (patchNeedsReanalysis existing u ||
            patchNeedsImageGeneration existing u) = false := by
          simpa using hflags
        simp [patchMeals, hg, hflags']
  · intro s id u a syn existing h hflags
    obtain ⟨f3, _, _, _, _, _, _, hev⟩ := patchAsync_ok
      (updateMeal s id (fullUpdate (patchSyncMeal existing u))).1 id
      (patchSyncMeal existing u) (patchNeedsImageGeneration existing u) a syn
    simp only [patchMeals, h, hflags, if_true]
    rw [hev]
    simp

/-- Witness for `broadcast_only_on_success`: the concrete create
`exCreateReq` with a successful analysis broadcasts the new record's
id. -/
theorem broadcast_only_on_success_witness :
    Ev.broadcast exCreatedMeal.id ∈ (postMeals exStore 50 exCreateReq
      (Except.ok pizzaAnalysis) (Except.error ())).events :=
  (broadcast_only_on_success).2.1 exStore 50 exCreateReq pizzaAnalysis
    (Except.error ()) exCreatedMeal (by decide)

/-! ## C8 — independence of the two asynchronous steps -/

/-- **C8 counterexample**: in the update path, a successful image
synthesis followed by an Analyzer throw does *not* persist the
synthesized image: patching `exMeal` (AI-provenance, `imageUrl = ""`)
with a changed description schedules regeneration, the Synthesizer is
invoked and succeeds with payload `"NEWIMG"`, the Analyzer then throws —
and the catch block (`server/routes.ts:435-439`) writes only
`analysisPending: false`, so the stored `imageUrl` is still the old `""`
rather than `"data:image/png;base64,NEWIMG"`. -/
theorem synthesized_image_discarded_on_analyzer_failure :
    Ev.synthCall ∈ (patchMeals exStore 1 { description := some "new dish" }
      (Except.error ()) (Except.ok "NEWIMG")).events ∧
    (getMealById (patchMeals exStore 1 { description := some "new dish" }
        (Except.error ()) (Except.ok "NEWIMG")).store 1).map Meal.imageUrl =
      some "" ∧
    "" ≠ "data:image/png;base64,NEWIMG" := by decide

/-- **C8 amended**: the independence holds in one direction only.  If
the Synthesizer fails, the Analyzer still runs and its results are
persisted — in the create path (first part) and in the update path
(second part, where the broadcast is also still sent).  But if the
Analyzer fails after a successful synthesis in the update path (third
part), the final record is exactly the synchronous record with
`analysisPending` cleared: the synthesized image is discarded, not
persisted. -/
theorem async_steps_independence :
    (∀ (s : Store), s.WF → ∀ (now : Int) (req : CreateReq)
      (a : MealAnalysis) (m : Meal),
      (postMeals s now req (Except.ok a) (Except.error ())).resp =
        Except.ok m →
      ∃ f, getMealById
          (postMeals s now req (Except.ok a) (Except.error ())).store m.id =
          some f ∧
        f.calories = a.calories ∧ f.fat = a.fat ∧ f.carbs = a.carbs ∧
        f.protein = jsOrI a.protein 0 ∧ f.analysisPending = false) ∧
    (∀ (s : Store) (id : Nat) (u : PatchReq) (a : MealAnalysis)
      (existing : Meal), getMealById s id = some existing →
      (patchNeedsReanalysis existing u ||
        patchNeedsImageGeneration existing u) = true →
      Ev.analyzerCall ∈
        (patchMeals s id u (Except.ok a) (Except.error ())).events ∧
      Ev.broadcast id ∈
        (patchMeals s id u (Except.ok a) (Except.error ())).events ∧
      ∃ f, getMealById
          (patchMeals s id u (Except.ok a) (Except.error ())).store id =
          some f ∧
        f.calories = a.calories ∧ f.fat = a.fat ∧ f.carbs = a.carbs ∧
        f.protein = jsOrI a.protein 0 ∧ f.analysisPending = false) ∧
    (∀ (s : Store) (id : Nat) (u : PatchReq) (b : String) (existing : Meal),
      getMealById s id = some existing →
      patchNeedsImageGeneration existing u = true →
      Ev.synthCall ∈
        (patchMeals s id u (Except.error ()) (Except.ok b)).events ∧
      getMealById (patchMeals s id u (Except.error ()) (Except.ok b)).store
          id =
        some { patchSyncMeal existing u with analysisPending := false }) := by
  refine ⟨?_, ?_, ?_⟩
  · intro s hwf now req a m hresp
    obtain ⟨mt, hmt, heq⟩ := postMeals_ok hresp
    rw [heq] at hresp
    rw [createMainBranch_resp] at hresp
    have hm : createdMeal s now req mt = m := by simpa using hresp
    subst hm
    rw [heq]
    obtain ⟨u2, hstore, hc, hf, hcb, hp, hpend, _⟩ := createAsync_ok
      (createMeal s (createInsert req mt
        (processImages req (createHasDescription req))) now).1
      (createMeal s (createInsert req mt
        (processImages req (createHasDescription req))) now).2
      (processImages req (createHasDescription req)).willGenerateImage a
      (Except.error ())
    have h0 := getMealById_createMeal s hwf
      (createInsert req mt (processImages req (createHasDescription req))) now
    have h1 := getMealById_updateMeal_self u2 h0
    refine ⟨applyUpdate (createdMeal s now req mt) u2, ?_, ?_, ?_, ?_, ?_, ?_⟩
    · show getMealById
        (createAsync (createMeal s (createInsert req mt
          (processImages req (createHasDescription req))) now).1
          (createMeal s (createInsert req mt
            (processImages req (createHasDescription req))) now).2
          (processImages req (createHasDescription req)).willGenerateImage
          (Except.ok a) (Except.error ())).1 (createdMeal s now req mt).id =
        some (applyUpdate (createdMeal s now req mt) u2)
      rw [hstore]
      exact h1
    all_goals simp [applyUpdate, hc, hf, hcb, hp, hpend]
  · intro s id u a existing h hflags
    have h1 : getMealById
        (updateMeal s id (fullUpdate (patchSyncMeal existing u))).1 id =
        some (patchSyncMeal existing u) := by
      have := getMealById_updateMeal_self
        (fullUpdate (patchSyncMeal existing u)) h
      rwa [applyUpdate_fullUpdate_sync] at this
    obtain ⟨f3, hstore, hc, hf, hcb, hp, hpend, hev⟩ := patchAsync_ok
      (updateMeal s id (fullUpdate (patchSyncMeal existing u))).1 id
      (patchSyncMeal existing u) (patchNeedsImageGeneration existing u) a
      (Except.error ())
    refine ⟨?_, ?_, ?_⟩
    · simp only [patchMeals, h, hflags, if_true]
      rw [hev]
      simp
    · simp only [patchMeals, h, hflags, if_true]
      rw [hev]
      simp
    · refine ⟨applyUpdate (patchSyncMeal existing u) f3, ?_, ?_, ?_, ?_, ?_, ?_⟩
      · simp only [patchMeals, h, hflags, if_true]
        rw [hstore]
        exact getMealById_updateMeal_self f3 h1
      all_goals simp [applyUpdate, hc, hf, hcb, hp, hpend]
  · intro s id u b existing h hgen
    have hflags : (patchNeedsReanalysis existing u ||
        patchNeedsImageGeneration existing u) = true := by
      simp [hgen]
    have h1 : getMealById
        (updateMeal s id (fullUpdate (patchSyncMeal existing u))).1 id =
        some (patchSyncMeal existing u) := by
      have := getMealById_updateMeal_self
        (fullUpdate (patchSyncMeal existing u)) h
      rwa [applyUpdate_fullUpdate_sync] at this
    have h2 := getMealById_updateMeal_self
      ({ analysisPending := some false } : MealUpdate) h1
    rw [applyUpdate_pendingOnly] at h2
    constructor
    · simp only [patchMeals, h, hflags, if_true]
      rw [patchAsync_error]
      simp [hgen]
    · simp only [patchMeals, h, hflags, if_true]
      rw [patchAsync_error]
      exact h2

/-- Witness for `async_steps_independence`: patching `exMeal` with a
changed description, with the Synthesizer succeeding and the Analyzer
throwing, invokes the Synthesizer yet finalizes the record as the
synchronous write with `analysisPending` cleared (old image retained). -/
theorem async_steps_independence_witness :
    Ev.synthCall ∈ (patchMeals exStore 1
      { description := some "extra cheese" } (Except.error ())
      (Except.ok "IMGB")).events ∧
    getMealById (patchMeals exStore 1 { description := some "extra cheese" }
        (Except.error ()) (Except.ok "IMGB")).store 1 =
      some { patchSyncMeal exMeal { description := some "extra cheese" } with
        analysisPending := false } :=
  (async_steps_independence).2.2 exStore 1
    { description := some "extra cheese" } "IMGB" exMeal (by decide)
    (by decide)

/-! ## C2 — placeholder-then-reconcile on the create path -/

theorem jsOrI_zero_nonneg {a : Int} (h : 0 ≤ a) : 0 ≤ jsOrI a 0 := by
  unfold jsOrI
  split_ifs with hz
  · exact le_refl 0
  · exact h

/-- **C2 counterexample**: the reconciled nutrition values need not be
non-negative.  Creating `exCreateReq` with the upstream reply `rawNeg`
(`calories: -5`) resolves the asynchronous step successfully (the
broadcast fires), yet the stored record's `calories` is `-5`. -/
theorem create_negative_nutrition_reachable :
    (getMealById (postMeals exStore 50 exCreateReq
        (Except.ok (analyzeFoodOk rawNeg)) (Except.error ())).store 2).map
      Meal.calories = some (-5) ∧
    Ev.broadcast 2 ∈ (postMeals exStore 50 exCreateReq
      (Except.ok (analyzeFoodOk rawNeg)) (Except.error ())).events := by
  rw [analyzeFoodOk_rawNeg]
  decide

/-- **C2 amended**: for every valid create request (one whose response
is the created record), the record persisted synchronously and returned
immediately has zero nutrition and `analysisPending = true`; the trace
begins with that synchronous persist followed by the response, so the
persist completes before any Analyzer or Synthesizer call; and after the
asynchronous analysis resolves, the stored record has
`analysisPending = false` and integer nutrition values equal to
`analyzeFood`'s coerced outputs — non-negative whenever the upstream raw
values are non-negative (a negative upstream value is stored as-is). -/
theorem create_placeholder_then_reconcile (s : Store) (hwf : s.WF)
    (now : Int) (req : CreateReq) (raw : RawAnalysis)
    (syn : Except Unit String) (m : Meal)
    (hresp : (postMeals s now req (Except.ok (analyzeFoodOk raw)) syn).resp =
      Except.ok m) :
    m.calories = 0 ∧ m.fat = 0 ∧ m.carbs = 0 ∧ m.protein = 0 ∧
    m.analysisPending = true ∧
    (∃ rest, (postMeals s now req (Except.ok (analyzeFoodOk raw)) syn).events =
      Ev.storeCreate m :: Ev.respond :: rest) ∧
    (∃ f, getMealById
        (postMeals s now req (Except.ok (analyzeFoodOk raw)) syn).store m.id =
        some f ∧
      f.analysisPending = false ∧
      f.calories = (analyzeFoodOk raw).calories ∧
      f.fat = (analyzeFoodOk raw).fat ∧
      f.carbs = (analyzeFoodOk raw).carbs ∧
      f.protein = jsOrI (analyzeFoodOk raw).protein 0 ∧
      (0 ≤ jsNumOr0 raw.calories → 0 ≤ f.calories) ∧
      (0 ≤ jsNumOr0 raw.fat → 0 ≤ f.fat) ∧
      (0 ≤ jsNumOr0 raw.carbs → 0 ≤ f.carbs) ∧
      (0 ≤ jsNumOr0 raw.protein → 0 ≤ f.protein)) := by
  obtain ⟨mt, hmt, heq⟩ := postMeals_ok hresp
  rw [heq] at hresp
  rw [createMainBranch_resp] at hresp
  have hm : createdMeal s now req mt = m := by simpa using hresp
  subst hm
  rw [heq]
  obtain ⟨hc0, hf0, hcb0, hp0, hpend0⟩ := createdMeal_placeholder s now req mt
  refine ⟨hc0, hf0, hcb0, hp0, hpend0, ?_, ?_⟩
  · exact ⟨(createAsync
      (createMeal s (createInsert req mt
        (processImages req (createHasDescription req))) now).1
      (createMeal s (createInsert req mt
        (processImages req (createHasDescription req))) now).2
      (processImages req (createHasDescription req)).willGenerateImage
      (Except.ok (analyzeFoodOk raw)) syn).2, rfl⟩
  · obtain ⟨u2, hstore, hc, hf, hcb, hp, hpend, _⟩ := createAsync_ok
      (createMeal s (createInsert req mt
        (processImages req (createHasDescription req))) now).1
      (createMeal s (createInsert req mt
        (processImages req (createHasDescription req))) now).2
      (processImages req (createHasDescription req)).willGenerateImage
      (analyzeFoodOk raw) syn
    have h0 := getMealById_createMeal s hwf
      (createInsert req mt (processImages req (createHasDescription req))) now
    have h1 := getMealById_updateMeal_self u2 h0
    refine ⟨applyUpdate (createdMeal s now req mt) u2, ?_, ?_, ?_, ?_, ?_, ?_,
      ?_, ?_, ?_, ?_⟩
    · show getMealById
        (createAsync (createMeal s (createInsert req mt
          (processImages req (createHasDescription req))) now).1
          (createMeal s (createInsert req mt
            (processImages req (createHasDescription req))) now).2
          (processImages req (createHasDescription req)).willGenerateImage
          (Except.ok (analyzeFoodOk raw)) syn).1
          (createdMeal s now req mt).id =
        some (applyUpdate (createdMeal s now req mt) u2)
      rw [hstore]
      exact h1
    · simp [applyUpdate, hpend]
    · simp [applyUpdate, hc]
    · simp [applyUpdate, hf]
    · simp [applyUpdate, hcb]
    · simp [applyUpdate, hp]
    · intro hraw
      have : (applyUpdate (createdMeal s now req mt) u2).calories =
          (analyzeFoodOk raw).calories := by simp [applyUpdate, hc]
      rw [this]
      exact jsRound_nonneg hraw
    · intro hraw
      have : (applyUpdate (createdMeal s now req mt) u2).fat =
          (analyzeFoodOk raw).fat := by simp [applyUpdate, hf]
      rw [this]
      exact jsRound_nonneg hraw
    · intro hraw
      have : (applyUpdate (createdMeal s now req mt) u2).carbs =
          (analyzeFoodOk raw).carbs := by simp [applyUpdate, hcb]
      rw [this]
      exact jsRound_nonneg hraw
    · intro hraw
      have : (applyUpdate (createdMeal s now req mt) u2).protein =
          jsOrI (analyzeFoodOk raw).protein 0 := by simp [applyUpdate, hp]
      rw [this]
      exact jsOrI_zero_nonneg (jsRound_nonneg hraw)

/-- Witness for `create_placeholder_then_reconcile`: the concrete create
`exCreateReq` on `exStore` returns the placeholder row `exCreatedMeal`
with zero calories and `analysisPending = true`. -/
theorem create_placeholder_then_reconcile_witness :
    exCreatedMeal.calories = 0 :=
  (create_placeholder_then_reconcile exStore (by decide) 50 exCreateReq
    { : RawAnalysis } (Except.error ()) exCreatedMeal (by decide)).1

end NutriSnap
